import Mathlib

/-!
Verification of the resume-analyzer repository against its specification.

This file shallowly embeds the Python sources (`src/ai_extractor.py`,
`src/matcher.py`, `src/cache.py`) into Lean 4:

* Python strings are `String` / `List Char`; the embedding is exact for
  ASCII text (Python's `str.lower`, `str.upper`, `str.title`, `\d`, `\s`,
  `\w`, `[A-Z]`, `[a-z]` all coincide with the ASCII definitions used here
  on ASCII input, and every concrete input considered is ASCII).
* Python `float` arithmetic on the simple scores involved is modelled with
  `ℚ`; `round(x, 1)` is modelled by round-half-to-even on `ℚ` (`pyRound1`),
  which agrees with Python on the concrete values evaluated here.
* The regular-expression searches of the sources are embedded as explicit
  ordered-backtracking matchers over `List Char` (`RegM` below) mirroring
  `re` semantics: leftmost match, greedy quantifiers, ordered alternation.
* `dict` state (the in-memory cache) is embedded as explicit state passing.
* Python `list(set(xs))` has unspecified order; it is embedded as
  `List.dedup` (which preserves one occurrence of each element).  No theorem
  below depends on the order chosen, only on membership and counts of the
  deduplicated list.
* The `feedback` list of display strings built by `ResumeMatcher.match` is
  not modelled: its contents interpolate Python float `repr` output, and no
  claim concerns it.  All other fields of the match result are modelled.
-/

/-! ## Python character and string primitives -/

/-- Python `\s` (ASCII part): the whitespace characters recognised by
`str.strip`, `str.split()` and the regex class `\s`. -/
def isPySpace (c : Char) : Bool :=
  c = ' ' || c = '\t' || c = '\n' || c = '\r' || c = '\x0b' || c = '\x0c'

/-- ASCII `[A-Z]`, exactly the regex character class used in the sources. -/
def isUpperCh (c : Char) : Bool := 'A' ≤ c && c ≤ 'Z'

/-- ASCII `[a-z]`, exactly the regex character class used in the sources. -/
def isLowerCh (c : Char) : Bool := 'a' ≤ c && c ≤ 'z'

/-- Python `\w` (ASCII part), used for the word boundaries `\b`. -/
def isWordCh (c : Char) : Bool := isUpperCh c || isLowerCh c || c.isDigit || c = '_'

/-- ASCII lower-casing of one character, as Python `str.lower` on ASCII. -/
def pyLowerChar : Char → Char
  | 'A' => 'a' | 'B' => 'b' | 'C' => 'c' | 'D' => 'd' | 'E' => 'e' | 'F' => 'f'
  | 'G' => 'g' | 'H' => 'h' | 'I' => 'i' | 'J' => 'j' | 'K' => 'k' | 'L' => 'l'
  | 'M' => 'm' | 'N' => 'n' | 'O' => 'o' | 'P' => 'p' | 'Q' => 'q' | 'R' => 'r'
  | 'S' => 's' | 'T' => 't' | 'U' => 'u' | 'V' => 'v' | 'W' => 'w' | 'X' => 'x'
  | 'Y' => 'y' | 'Z' => 'z' | c => c

/-- ASCII upper-casing of one character, as Python `str.upper` on ASCII. -/
def pyUpperChar : Char → Char
  | 'a' => 'A' | 'b' => 'B' | 'c' => 'C' | 'd' => 'D' | 'e' => 'E' | 'f' => 'F'
  | 'g' => 'G' | 'h' => 'H' | 'i' => 'I' | 'j' => 'J' | 'k' => 'K' | 'l' => 'L'
  | 'm' => 'M' | 'n' => 'N' | 'o' => 'O' | 'p' => 'P' | 'q' => 'Q' | 'r' => 'R'
  | 's' => 'S' | 't' => 'T' | 'u' => 'U' | 'v' => 'V' | 'w' => 'W' | 'x' => 'X'
  | 'y' => 'Y' | 'z' => 'Z' | c => c

/-- Python `s.lower()`. -/
def pyLower (s : String) : String := ⟨s.data.map pyLowerChar⟩

/-- Python `s.upper()`. -/
def pyUpper (s : String) : String := ⟨s.data.map pyUpperChar⟩

/-- Python `s.strip()`. -/
def pyStrip (s : String) : String :=
  ⟨((s.data.dropWhile isPySpace).reverse.dropWhile isPySpace).reverse⟩

/-- Python substring containment `needle in haystack` on char lists. -/
def containsSub (n : List Char) : List Char → Bool
  | [] => n.isEmpty
  | c :: t => n.isPrefixOf (c :: t) || containsSub n t

/-- Python `needle in haystack` on strings. -/
def strIn (n h : String) : Bool := containsSub n.data h.data

theorem length_dropWhile_le (p : α → Bool) (l : List α) :
    (l.dropWhile p).length ≤ l.length := by
  induction l with
  | nil => simp
  | cons a t ih =>
    by_cases h : p a
    · rw [List.dropWhile_cons_of_pos h]; exact Nat.le_succ_of_le ih
    · rw [List.dropWhile_cons_of_neg (by simpa using h)]

/-- Worker for `splitWsL`: `cur` holds the current word, reversed. -/
def splitWsAux : List Char → List Char → List (List Char)
  | cur, [] => if cur.isEmpty then [] else [cur.reverse]
  | cur, c :: cs =>
    if isPySpace c then
      if cur.isEmpty then splitWsAux [] cs else cur.reverse :: splitWsAux [] cs
    else splitWsAux (c :: cur) cs

/-- Python `str.split()` (split on whitespace runs, dropping empties). -/
def splitWsL (cs : List Char) : List (List Char) := splitWsAux [] cs

/-- Split a char list at every occurrence of a character of `delims`,
keeping empty segments: Python `re.split(r'[.!?]', text)` style. -/
def splitOnAnyL (delims : List Char) : List Char → List (List Char)
  | [] => [[]]
  | c :: cs =>
    if c ∈ delims then [] :: splitOnAnyL delims cs
    else
      match splitOnAnyL delims cs with
      | [] => [[c]]
      | s :: rest => (c :: s) :: rest

/-- Python `text.split('\n')`. -/
def pyLines (text : String) : List String :=
  (splitOnAnyL ['\n'] text.data).map (fun l => ⟨l⟩)

/-- Digit string to number, as Python `int` on a nonempty digit string. -/
def digitsToNat (ds : List Char) : ℕ :=
  ds.foldl (fun acc c => 10 * acc + (c.toNat - '0'.toNat)) 0

/-! ## Python `round(x, 1)` on rationals

Python `round` rounds half to even.  `pyRoundInt` is round-half-to-even to
an integer; `pyRound1` is Python `round(x, 1)`. -/

def pyRoundInt (q : ℚ) : ℤ :=
  if Int.fract q < 1/2 then ⌊q⌋
  else if 1/2 < Int.fract q then ⌊q⌋ + 1
  else if ⌊q⌋ % 2 = 0 then ⌊q⌋ else ⌊q⌋ + 1

def pyRound1 (q : ℚ) : ℚ := (pyRoundInt (q * 10) : ℚ) / 10

/-! ## `src/cache.py` — `CacheManager`, in-memory backend

The in-memory backend (`redis_client is None`) stores values in the dict
`memory_cache` and expiry timestamps in `cache_expiry`.  Wall-clock time is
passed explicitly as a rational `now`. -/

structure CacheState (α : Type) where
  memory_cache : String → Option α
  cache_expiry : String → Option ℚ

/-- An empty cache, as freshly constructed `CacheManager` dicts. -/
def CacheState.empty (α : Type) : CacheState α :=
  ⟨fun _ => none, fun _ => none⟩

/-- `CacheManager.set(key, value, ttl)` executed at time `now`
(in-memory branch): stores the value and records expiry `now + ttl`. -/
def cacheSet {α : Type} (s : CacheState α) (key : String) (value : α)
    (ttl : ℤ) (now : ℚ) : CacheState α :=
  { memory_cache := fun k => if k = key then some value else s.memory_cache k
    cache_expiry := fun k => if k = key then some (now + ttl) else s.cache_expiry k }

/-- `CacheManager.get(key)` executed at time `now` (in-memory branch):
returns the stored value while `cache_expiry.get(key, 0) > now`, else
deletes the entry from both dicts and reports a miss (`None`). -/
def cacheGet {α : Type} (s : CacheState α) (key : String) (now : ℚ) :
    Option α × CacheState α :=
  match s.memory_cache key with
  | some v =>
    if (s.cache_expiry key).getD 0 > now then (some v, s)
    else
      (none,
        { memory_cache := fun k => if k = key then none else s.memory_cache k
          cache_expiry := fun k => if k = key then none else s.cache_expiry k })
  | none => (none, s)

/-! ## `src/matcher.py` — recommendation tier and experience level -/

/-- `ResumeMatcher._get_recommendation`. -/
def get_recommendation (score : ℚ) : String :=
  if score ≥ 85/10 then "强烈推荐"
  else if score ≥ 7 then "推荐"
  else if score ≥ 5 then "可考虑"
  else "不推荐"

/-- `ResumeMatcher._get_experience_level`. -/
def get_experience_level (years : ℕ) : String :=
  if years ≥ 8 then "Senior/Expert"
  else if years ≥ 5 then "Senior"
  else if years ≥ 3 then "Mid-level"
  else if years ≥ 1 then "Junior"
  else "Entry-level"

/-! ## Ordered-backtracking regex fragments

`RegM` is the type of a regex fragment: applied to the input suffix it
returns every way the fragment can match a prefix of it, as
`(consumed, rest)` pairs, in the order Python's backtracking engine would
try them (greedy quantifiers longest first, ordered alternation).  The
overall first match of a sequenced pattern is the head of the flattened
alternative list, exactly `re`'s leftmost/greedy/backtracking choice. -/

abbrev RegM := List Char → List (List Char × List Char)

/-- The empty fragment (matches nothing, always succeeds). -/
def mEps : RegM := fun cs => [([], cs)]

/-- A literal string fragment. -/
def mLit (l : List Char) : RegM := fun cs =>
  if l.isPrefixOf cs then [(l, cs.drop l.length)] else []

/-- `c?` for a single character class: greedy, so consuming first. -/
def mOptCh (p : Char → Bool) : RegM := fun cs =>
  match cs with
  | c :: t => if p c then [([c], t), ([], cs)] else [([], cs)]
  | [] => [([], [])]

/-- `p*` for a character class: alternatives from the longest run down to
the empty match, in that (greedy) order. -/
def mStar (p : Char → Bool) : RegM := fun cs =>
  let run := cs.takeWhile p
  let rest := cs.dropWhile p
  (List.range (run.length + 1)).map
    (fun i => (run.take (run.length - i), run.drop (run.length - i) ++ rest))

/-- `p+` for a character class: like `mStar` but at least one character. -/
def mPlus (p : Char → Bool) : RegM := fun cs =>
  (mStar p cs).filter (fun x => !x.1.isEmpty)

/-- Sequencing of fragments, preserving backtracking priority order. -/
def mSeq (a b : RegM) : RegM := fun cs =>
  (a cs).flatMap (fun x => (b x.2).map (fun y => (x.1 ++ y.1, y.2)))

/-- Sequencing of a fragment list. -/
def mSeqs (l : List RegM) : RegM := l.foldr mSeq mEps

/-- All the numeric patterns of the sources have the shape
`pre (\d+) post` with a single capture group of digits.  `capAt` matches
such a pattern anchored at the start of `cs` and returns the captured
number of the first (highest-priority) complete match, exactly the group
Python's `re.search`/`re.match` would capture at this position. -/
def capAt (pre post : RegM) (cs : List Char) : Option ℕ :=
  ((pre cs).flatMap (fun pr =>
    (mPlus Char.isDigit pr.2).flatMap (fun dg =>
      if (post dg.2).isEmpty then [] else [digitsToNat dg.1]))).head?

/-- `re.search` for a `pre (\d+) post` pattern: leftmost matching start
position wins, the capture at that position is returned. -/
def searchCap (pre post : RegM) : List Char → Option ℕ
  | [] => capAt pre post []
  | c :: t =>
    match capAt pre post (c :: t) with
    | some n => some n
    | none => searchCap pre post t

/-! ### The numeric patterns of `matcher.py`

`ResumeMatcher._extract_years_required` tries, in order (on the lowercased
job description):
  1. `(\d+)\+?\s*years`
  2. `(\d+)\+?\s*years? experience`
  3. `experience of (\d+)\+?\s*years`
  4. `(\d+)\s*-\s*\d+\s*years`
`ResumeMatcher._extract_job_keywords` tries, in order (also lowercased):
  1. `(\d+)\+?\s*years?\s+experience`
  2. `experience\s+of\s+(\d+)\+?\s*years?`
  3. `(\d+)\s*-\s*\d+\s*years`
Each is embedded as a `(pre, post)` pair around the `(\d+)` group. -/

def postPlusSpYears : RegM :=
  mSeqs [mOptCh (· = '+'), mStar isPySpace, mLit "years".data]

def reqPat1 (cs : List Char) : Option ℕ := searchCap mEps postPlusSpYears cs

def reqPat2 (cs : List Char) : Option ℕ :=
  searchCap mEps
    (mSeqs [mOptCh (· = '+'), mStar isPySpace, mLit "year".data,
      mOptCh (· = 's'), mLit " experience".data]) cs

def reqPat3 (cs : List Char) : Option ℕ :=
  searchCap (mLit "experience of ".data) postPlusSpYears cs

def rangeYearsPat (cs : List Char) : Option ℕ :=
  searchCap mEps
    (mSeqs [mStar isPySpace, mLit "-".data, mStar isPySpace,
      mPlus Char.isDigit, mStar isPySpace, mLit "years".data]) cs

def kwPat1 (cs : List Char) : Option ℕ :=
  searchCap mEps
    (mSeqs [mOptCh (· = '+'), mStar isPySpace, mLit "year".data,
      mOptCh (· = 's'), mPlus isPySpace, mLit "experience".data]) cs

def kwPat2 (cs : List Char) : Option ℕ :=
  searchCap
    (mSeqs [mLit "experience".data, mPlus isPySpace, mLit "of".data,
      mPlus isPySpace])
    (mSeqs [mOptCh (· = '+'), mStar isPySpace, mLit "year".data,
      mOptCh (· = 's')]) cs

/-! ### Bounded quantifiers and full-match search (phone/email patterns) -/

/-- `p{lo,hi}` for a character class: greedy, longest alternative first. -/
def mRange (p : Char → Bool) (lo hi : ℕ) : RegM := fun cs =>
  let maxk := min hi (cs.takeWhile p).length
  (List.range (maxk + 1)).filterMap (fun i =>
    let k := maxk - i
    if lo ≤ k then some (cs.take k, cs.drop k) else none)

/-- `p{n,}` for a character class: greedy, longest alternative first. -/
def mAtLeast (p : Char → Bool) (n : ℕ) : RegM := fun cs =>
  (mStar p cs).filter (fun x => n ≤ x.1.length)

/-- First match of a groupless pattern, as `re.findall(pat, s)[0]`
for a pattern without capture groups (leftmost match, full match text). -/
def findFirstM (m : RegM) : List Char → Option (List Char)
  | [] => ((m []).head?).map (·.1)
  | c :: t =>
    match (m (c :: t)).head? with
    | some x => some x.1
    | none => findFirstM m t

/-! ### `AIExtractor` regex scans -/

/-- `re.findall(r'(19|20)\d{2}', text)`: because the pattern has one
capture group `(19|20)`, Python returns the list of *group* matches, i.e.
the two-character strings `"19"` / `"20"`, here already through `int` as
the numbers 19 / 20.  Matches are leftmost and non-overlapping. -/
def yearAt : List Char → Option (ℕ × List Char)
  | '1' :: '9' :: d1 :: d2 :: rest =>
    if d1.isDigit && d2.isDigit then some (19, rest) else none
  | '2' :: '0' :: d1 :: d2 :: rest =>
    if d1.isDigit && d2.isDigit then some (20, rest) else none
  | _ => none

/-- Scan driver for `yearScan`; the fuel argument is only a
structural-recursion bound (a match consumes four characters, a failure
one), so fuel `cs.length` never runs out. -/
def yearScanAux : ℕ → List Char → List ℕ
  | 0, _ => []
  | _ + 1, [] => []
  | fuel + 1, c :: cs =>
    match yearAt (c :: cs) with
    | some (g, rest) => g :: yearScanAux fuel rest
    | none => yearScanAux fuel cs

def yearScan (cs : List Char) : List ℕ := yearScanAux cs.length cs

/-- `re.search(r'(19|20)\d{2}', line)`: the full text of the first match
(four characters), used for `graduation_year`. -/
def searchYear : List Char → Option (List Char)
  | '1' :: '9' :: d1 :: d2 :: rest =>
    if d1.isDigit && d2.isDigit then some ['1', '9', d1, d2]
    else searchYear ('9' :: d1 :: d2 :: rest)
  | '2' :: '0' :: d1 :: d2 :: rest =>
    if d1.isDigit && d2.isDigit then some ['2', '0', d1, d2]
    else searchYear ('0' :: d1 :: d2 :: rest)
  | _ :: cs => searchYear cs
  | [] => none

/-- Anchored match of `\b[A-Z][a-z]+[A-Z][a-z]+\b` minus the leading
boundary (checked by the caller): both `[a-z]+` runs are taken greedily —
shorter alternatives always fail, because the following required class is
disjoint from `[a-z]` — and the trailing `\b` requires the next character
to be a non-word character (or the end). -/
def camelAt : List Char → Option (List Char)
  | [] => none
  | c :: cs =>
    let r1 := cs.takeWhile isLowerCh
    match cs.dropWhile isLowerCh with
    | [] => none
    | d :: cs2 =>
      let r2 := cs2.takeWhile isLowerCh
      let bOk := match cs2.dropWhile isLowerCh with
        | [] => true
        | e :: _ => !isWordCh e
      if isUpperCh c && !r1.isEmpty && isUpperCh d && !r2.isEmpty && bOk then
        some (c :: r1 ++ d :: r2)
      else none

/-- Anchored match of `\b[A-Z]{2,}\b` minus the leading boundary: the
`[A-Z]` run is taken greedily (shorter alternatives always fail the
trailing `\b`), must have length at least 2, and the next character must
be a non-word character (or the end). -/
def capsAt (cs : List Char) : Option (List Char) :=
  let r := cs.takeWhile isUpperCh
  let bOk := match cs.dropWhile isUpperCh with
    | [] => true
    | e :: _ => !isWordCh e
  if 2 ≤ r.length && bOk then some r else none

/-- `re.findall` driver for the two word-boundary patterns above: tries
every position whose preceding character is not a word character (the
leading `\b`), collects non-overlapping matches left to right.  The fuel
argument is only a structural-recursion bound: every step consumes at
least one input character, so fuel `cs.length` (as supplied by `scanBnd`)
never runs out. -/
def bndOk : Option Char → Bool
  | none => true
  | some p => !isWordCh p

/-- Attempt a match at this position only when the leading word boundary
holds (`prev` is the character before the position, if any). -/
def bndTry (atM : List Char → Option (List Char)) (prev : Option Char)
    (cs : List Char) : Option (List Char) :=
  if bndOk prev then atM cs else none

def scanBndAux (atM : List Char → Option (List Char)) :
    ℕ → Option Char → List Char → List (List Char)
  | 0, _, _ => []
  | _ + 1, _, [] => []
  | fuel + 1, prev, c :: cs =>
    match bndTry atM prev (c :: cs) with
    | some m =>
      if m.length = 0 then scanBndAux atM fuel (some c) cs
      else m :: scanBndAux atM fuel m.getLast? ((c :: cs).drop m.length)
    | none => scanBndAux atM fuel (some c) cs

def scanBnd (atM : List Char → Option (List Char)) (prev : Option Char)
    (cs : List Char) : List (List Char) :=
  scanBndAux atM cs.length prev cs

/-- `re.findall(r'\b[A-Z][a-z]+[A-Z][a-z]+\b', s)`. -/
def findallCamel (s : String) : List String :=
  (scanBnd camelAt none s.data).map (fun l => ⟨l⟩)

/-- `re.findall(r'\b[A-Z]{2,}\b', s)`. -/
def findallCaps (s : String) : List String :=
  (scanBnd capsAt none s.data).map (fun l => ⟨l⟩)

/-! ### Phone and email patterns of `AIExtractor._extract_basic_info` -/

/-- The class `[\s\-]` of the first two phone patterns. -/
def isSepWS (c : Char) : Bool := isPySpace c || c = '-'

/-- The class `[\s\-\.]` of the third phone pattern. -/
def isSepWSD (c : Char) : Bool := isPySpace c || c = '-' || c = '.'

/-- ASCII `[a-zA-Z0-9]`. -/
def isAsciiAlnum (c : Char) : Bool := isUpperCh c || isLowerCh c || c.isDigit

/-- The local-part class `[a-zA-Z0-9._%+-]` of the email pattern. -/
def isLocalCh (c : Char) : Bool :=
  isAsciiAlnum c || c = '.' || c = '_' || c = '%' || c = '+' || c = '-'

/-- The domain class `[a-zA-Z0-9.-]` of the email pattern. -/
def isDomainCh (c : Char) : Bool := isAsciiAlnum c || c = '.' || c = '-'

/-- ASCII `[a-zA-Z]`. -/
def isAsciiAlpha (c : Char) : Bool := isUpperCh c || isLowerCh c

/-- `r'\+\d{1,3}[\s\-]?\d{3,4}[\s\-]?\d{3,4}[\s\-]?\d{3,4}'`. -/
def phonePat1 : RegM :=
  mSeqs [mLit "+".data, mRange Char.isDigit 1 3, mOptCh isSepWS,
    mRange Char.isDigit 3 4, mOptCh isSepWS, mRange Char.isDigit 3 4,
    mOptCh isSepWS, mRange Char.isDigit 3 4]

/-- `r'\(\d{3}\)[\s\-]?\d{3}[\s\-]?\d{4}'`. -/
def phonePat2 : RegM :=
  mSeqs [mLit "(".data, mRange Char.isDigit 3 3, mLit ")".data,
    mOptCh isSepWS, mRange Char.isDigit 3 3, mOptCh isSepWS,
    mRange Char.isDigit 4 4]

/-- `r'\d{3}[\s\-\.]?\d{3}[\s\-\.]?\d{4}'`. -/
def phonePat3 : RegM :=
  mSeqs [mRange Char.isDigit 3 3, mOptCh isSepWSD, mRange Char.isDigit 3 3,
    mOptCh isSepWSD, mRange Char.isDigit 4 4]

/-- `r'[a-zA-Z0-9._%+-]+@[a-zA-Z0-9.-]+\.[a-zA-Z]{2,}'`. -/
def emailPat : RegM :=
  mSeqs [mPlus isLocalCh, mLit "@".data, mPlus isDomainCh, mLit ".".data,
    mAtLeast isAsciiAlpha 2]

/-! ## `src/ai_extractor.py` — data model -/

structure BasicInfo where
  name : String
  phone : String
  email : String
  location : String
deriving DecidableEq

structure Skills where
  programming : List String
  web : List String
  databases : List String
  cloud : List String
  ai_ml : List String
  soft_skills : List String
  other : List String
deriving DecidableEq

structure Experience where
  years : ℕ
  companies : List String
  roles : List String
deriving DecidableEq

structure Education where
  degree : String
  university : String
  graduation_year : String
deriving DecidableEq

structure ResumeInfo where
  basic_info : BasicInfo
  skills : Skills
  experience : Experience
  education : Education
  summary : String
deriving DecidableEq

/-! ### `AIExtractor` fixed keyword lists -/

def programming_keywords : List String :=
  ["python", "java", "javascript", "c++", "c#", "go", "rust", "php", "ruby",
   "swift", "kotlin"]

def web_keywords : List String :=
  ["html", "css", "react", "vue", "angular", "django", "flask", "node.js",
   "express", "spring"]

def databases_keywords : List String :=
  ["mysql", "postgresql", "mongodb", "redis", "oracle", "sqlite", "sql"]

def cloud_keywords : List String :=
  ["aws", "azure", "gcp", "docker", "kubernetes", "jenkins", "gitlab", "github"]

def ai_ml_keywords : List String :=
  ["tensorflow", "pytorch", "scikit-learn", "nlp", "computer vision",
   "machine learning", "deep learning"]

def soft_skills_keywords : List String :=
  ["leadership", "communication", "teamwork", "problem solving",
   "project management"]

/-- Python `str.title()` on ASCII: a cased character is upper-cased when
the preceding character is not a letter, lower-cased otherwise. -/
def pyTitleAux : Bool → List Char → List Char
  | _, [] => []
  | prevAlpha, c :: cs =>
    (if isAsciiAlpha c then (if prevAlpha then pyLowerChar c else pyUpperChar c)
     else c) :: pyTitleAux (isAsciiAlpha c) cs

def pyTitle (s : String) : String := ⟨pyTitleAux false s.data⟩

/-! ### `AIExtractor._extract_basic_info` -/

/-- The symbol class `[@#\$%\^&\*\(\)]` rejected in name lines. -/
def name_bad_symbols : List Char := ['@', '#', '$', '%', '^', '&', '*', '(', ')']

/-- Name: within the first 10 lines, first stripped line with 2–4
whitespace-separated tokens, no digit and no special symbol. -/
def extract_name (text : String) : String :=
  match ((pyLines text).take 10).find? (fun l =>
      let ls := pyStrip l
      ls ≠ "" && 2 ≤ (splitWsL ls.data).length && (splitWsL ls.data).length ≤ 4
        && !(ls.data.any Char.isDigit)
        && !(ls.data.any (fun c => c ∈ name_bad_symbols))) with
  | some l => pyStrip l
  | none => ""

/-- Phone: first of the three phone patterns with any match wins; the
first (leftmost) match of that pattern is taken. -/
def extract_phone (text : String) : String :=
  match findFirstM phonePat1 text.data with
  | some m => ⟨m⟩
  | none =>
    match findFirstM phonePat2 text.data with
    | some m => ⟨m⟩
    | none =>
      match findFirstM phonePat3 text.data with
      | some m => ⟨m⟩
      | none => ""

/-- Email: first match of the email pattern, or empty. -/
def extract_email (text : String) : String :=
  match findFirstM emailPat text.data with
  | some m => ⟨m⟩
  | none => ""

/-- The location keyword list.  Note `"st\\."` is Python's `'st\.'`: a
literal backslash followed by a dot, as written in the source. -/
def location_keywords : List String :=
  ["street", "avenue", "road", "st\\.", "ave\\.", "rd\\.", "city", "state",
   "province", "country", "zip", "postal"]

/-- Location: first sentence (split on `.`/`!`/`?`) containing a location
keyword whose stripped length is strictly between 10 and 100. -/
def extract_location (text : String) : String :=
  match (splitOnAnyL ['.', '!', '?'] text.data).find? (fun sent =>
      (location_keywords.any (fun kw => strIn kw (pyLower ⟨sent⟩))) &&
      (let a := pyStrip ⟨sent⟩; 10 < a.length && a.length < 100)) with
  | some sent => pyStrip ⟨sent⟩
  | none => ""

def extract_basic_info (text : String) : BasicInfo :=
  { name := extract_name text
    phone := extract_phone text
    email := extract_email text
    location := extract_location text }

/-! ### `AIExtractor._extract_skills` -/

/-- Per category: keywords occurring as substrings of the lowercased text,
each `title()`-cased, deduplicated.  The `other` category is never
populated by the source. -/
def extract_skills (text : String) : Skills :=
  let tl := pyLower text
  let f := fun (kws : List String) =>
    ((kws.filter (fun k => strIn k tl)).map pyTitle).dedup
  { programming := f programming_keywords
    web := f web_keywords
    databases := f databases_keywords
    cloud := f cloud_keywords
    ai_ml := f ai_ml_keywords
    soft_skills := f soft_skills_keywords
    other := [] }

/-! ### `AIExtractor._estimate_experience_years` -/

def exp_senior_keywords : List String :=
  ["senior", "lead", "principal", "architect", "director"]

def exp_junior_keywords : List String :=
  ["junior", "entry", "fresh", "graduate", "intern"]

/-- `re.search(rf'(\d+)\s*{keyword}', text)`: captured number before the
keyword, if any. -/
def digitsBefore (kw : String) (cs : List Char) : Option ℕ :=
  searchCap mEps (mSeqs [mStar isPySpace, mLit kw.data]) cs

/-- The date-pair tier of `_estimate_experience_years`: if `re.findall`
returned at least two (group) matches, filter them by `1900 < y <= 2024`
and, when any remain, return `max(0, max - min)`.  (Because the findall
groups are only ever 19 or 20, the filter result is in fact always empty —
see `yearScan_mem` below.) -/
def estimateViaDates (text : String) : Option ℕ :=
  let years := yearScan text.data
  if 2 ≤ years.length then
    let years_int := years.filter (fun y => 1900 < y && y ≤ 2024)
    if years_int.isEmpty then none
    else
      some ((max 0 (((years_int.map (Int.ofNat)).max?.getD 0) -
        ((years_int.map (Int.ofNat)).min?.getD 0))).toNat)
  else none

/-- The keyword tiers of `_estimate_experience_years`: a number captured
before "years"/"experience"/"experienced" (first hit wins), else 5 for a
senior keyword, 1 for a junior keyword, else 3. -/
def estimateViaKeywords (text : String) : ℕ :=
  let tl := pyLower text
  match digitsBefore "years" tl.data with
  | some n => n
  | none =>
    match digitsBefore "experience" tl.data with
    | some n => n
    | none =>
      match digitsBefore "experienced" tl.data with
      | some n => n
      | none =>
        if exp_senior_keywords.any (fun k => strIn k tl) then 5
        else if exp_junior_keywords.any (fun k => strIn k tl) then 1
        else 3

def estimate_experience_years (text : String) : ℕ :=
  match estimateViaDates text with
  | some n => n
  | none => estimateViaKeywords text

/-! ### `AIExtractor._extract_experience` -/

def experience_section_keywords : List String :=
  ["experience", "work", "employment", "career", "professional"]

def role_title_keywords : List String :=
  ["engineer", "developer", "manager", "analyst", "director", "specialist",
   "consultant"]

def company_suffix_keywords : List String :=
  ["inc", "ltd", "corp", "company", "technologies", "group"]

/-- Section scan of `_extract_experience`: for every line containing an
experience-section keyword, classify each of the next up-to-9 lines
(stripped, length > 2) as a role (role keyword present) or else as a
company (company keyword present); accumulate `(roles, companies)` in
append order. -/
def scanExpLines (lines : List String) : List String × List String :=
  (List.range lines.length).foldl (fun acc i =>
    if experience_section_keywords.any
        (fun k => strIn k (pyLower (lines.getD i ""))) then
      ((lines.drop (i + 1)).take 9).foldl (fun acc2 nl =>
        let nx := pyStrip nl
        if 2 < nx.length then
          if role_title_keywords.any (fun k => strIn k (pyLower nx)) then
            (acc2.1 ++ [nx], acc2.2)
          else if company_suffix_keywords.any (fun k => strIn k (pyLower nx)) then
            (acc2.1, acc2.2 ++ [nx])
          else acc2
        else acc2) acc
    else acc) ([], [])

def extract_experience (text : String) : Experience :=
  let rc := scanExpLines (pyLines text)
  { years := estimate_experience_years text
    companies := rc.2.dedup.take 5
    roles := rc.1.dedup.take 5 }

/-! ### `AIExtractor._extract_education` -/

def education_line_keywords : List String :=
  ["university", "college", "institute", "school", "bachelor", "master",
   "phd", "doctor"]

def degree_keywords : List String :=
  ["bachelor", "master", "phd", "doctor", "b.sc", "m.sc", "b.tech", "m.tech",
   "bs", "ms"]

def extract_education (text : String) : Education :=
  match (pyLines text).find? (fun l =>
      education_line_keywords.any (fun k => strIn k (pyLower l))) with
  | none => { degree := "", university := "", graduation_year := "" }
  | some line =>
    { degree :=
        match degree_keywords.find? (fun d => strIn d (pyLower line)) with
        | some d => pyUpper d
        | none => ""
      university := pyStrip line
      graduation_year :=
        match searchYear line.data with
        | some m => ⟨m⟩
        | none => "" }

/-! ### `AIExtractor._generate_summary` and `extract_info` -/

def generate_summary (text : String) : String :=
  let summary := pyStrip ⟨text.data.take 300⟩
  if 300 < text.data.length then summary ++ "..." else summary

/-- `AIExtractor.extract_info`: the full profile. -/
def extract_info (text : String) : ResumeInfo :=
  { basic_info := extract_basic_info text
    skills := extract_skills text
    experience := extract_experience text
    education := extract_education text
    summary := generate_summary text }

/-! ## `src/matcher.py` — `ResumeMatcher` -/

def common_skills : List String :=
  ["python", "java", "javascript", "typescript", "c++", "c#", "go", "rust",
   "react", "vue", "angular", "node.js", "django", "flask", "spring",
   "aws", "azure", "gcp", "docker", "kubernetes", "jenkins",
   "mysql", "postgresql", "mongodb", "redis", "oracle",
   "machine learning", "ai", "deep learning", "nlp", "tensorflow", "pytorch",
   "agile", "scrum", "devops", "ci/cd", "git", "rest api", "microservices"]

def senior_level_keywords : List String :=
  ["senior", "lead", "principal", "architect", "expert"]

def mid_level_keywords : List String :=
  ["mid-level", "intermediate", "experienced"]

def junior_level_keywords : List String :=
  ["junior", "entry-level", "associate", "graduate"]

/-! ### `ResumeMatcher._extract_years_required` -/

/-- The explicit-figure portion of `_extract_years_required`: the four
numeric patterns tried in order on the lowercased job description. -/
def extract_years_explicit (jd : String) : Option ℕ :=
  let cs := (pyLower jd).data
  match reqPat1 cs with
  | some n => some n
  | none =>
    match reqPat2 cs with
    | some n => some n
    | none =>
      match reqPat3 cs with
      | some n => some n
      | none => rangeYearsPat cs

/-- `ResumeMatcher._extract_years_required`: explicit figure if any
pattern matches, else tier inference from level keywords, else 0. -/
def extract_years_required (jd : String) : ℕ :=
  match extract_years_explicit jd with
  | some n => n
  | none =>
    let tl := pyLower jd
    if senior_level_keywords.any (fun k => strIn k tl) then 5
    else if mid_level_keywords.any (fun k => strIn k tl) then 3
    else if junior_level_keywords.any (fun k => strIn k tl) then 1
    else 0

/-! ### `ResumeMatcher._extract_job_keywords` -/

/-- The synthetic token `f"experience_{n}_years"`. -/
def mkExpToken (n : ℕ) : String := "experience_" ++ toString n ++ "_years"

/-- The tenure scan of `_extract_job_keywords`: each of the three numeric
patterns is searched (in order, on the lowercased text) and *every* match
appends a synthetic token — the loop has no break. -/
def jobTenureTokens (jd : String) : List String :=
  let cs := (pyLower jd).data
  ([kwPat1 cs, kwPat2 cs, rangeYearsPat cs].filterMap id).map mkExpToken

/-- `ResumeMatcher._extract_job_keywords`: vocabulary keywords found as
substrings of the lowercased text, then up to 10 technical-looking words
from the original text (lowercased, skipping ones already present), then
the synthetic tenure tokens; finally `list(set(...))`. -/
def extract_job_keywords (jd : String) : List String :=
  let tl := pyLower jd
  let found1 := common_skills.filter (fun s => strIn s tl)
  let tech := (findallCamel jd ++ findallCaps jd).take 10
  let found2 := tech.foldl (fun acc w =>
    let wl := pyLower w
    if wl ∈ acc then acc else acc ++ [wl]) found1
  (found2 ++ jobTenureTokens jd).dedup

/-! ### `ResumeMatcher._calculate_skill_match` -/

structure SkillMatch where
  matched_skills : List String
  missing_skills : List String
  percentage : ℚ
  score : ℚ
deriving DecidableEq

/-- Flattening of the profile skill dict, in its insertion order. -/
def flattenSkills (sk : Skills) : List String :=
  sk.programming ++ sk.web ++ sk.databases ++ sk.cloud ++ sk.ai_ml ++
    sk.soft_skills ++ sk.other

def calculate_skill_match (resume_skills : Skills) (job_keywords : List String) :
    SkillMatch :=
  let all := ((flattenSkills resume_skills).map pyLower).dedup
  let matched := job_keywords.filter (fun kw =>
    all.any (fun s => strIn (pyLower kw) s || strIn s (pyLower kw)))
  let frac : ℚ :=
    if job_keywords.isEmpty then 0
    else (matched.length : ℚ) / (job_keywords.length : ℚ)
  { matched_skills := matched
    missing_skills := job_keywords.filter (fun k => k ∉ matched)
    percentage := pyRound1 (frac * 100)
    score := pyRound1 (frac * 10) }

/-! ### `ResumeMatcher._calculate_experience_match` -/

structure ExperienceMatch where
  years_required : ℕ
  years_actual : ℕ
  score : ℚ
  match_level : String
deriving DecidableEq

def calculate_experience_match (experience : Experience) (jd : String) :
    ExperienceMatch :=
  let yr := extract_years_required jd
  let ra := experience.years
  let ms : ℚ :=
    if 0 < yr then
      if ra ≥ yr then 10
      else if 0 < ra then min 10 ((ra : ℚ) / (yr : ℚ) * 10)
      else 0
    else
      if ra ≥ 8 then 9
      else if ra ≥ 5 then 15/2
      else if ra ≥ 3 then 6
      else if ra ≥ 1 then 4
      else 2
  { years_required := yr
    years_actual := ra
    score := pyRound1 ms
    match_level := get_experience_level ra }

/-! ### `ResumeMatcher._calculate_text_similarity` and overall score -/

def calculate_text_similarity (resume_text job_text : String) : ℚ :=
  let rw := (splitWsL (pyLower resume_text).data).dedup
  let jw := (splitWsL (pyLower job_text).data).dedup
  if rw.isEmpty || jw.isEmpty then 0
  else
    let inter := (rw.filter (fun w => w ∈ jw)).length
    let union := (rw ++ jw.filter (fun w => w ∉ rw)).length
    if union = 0 then 0 else (inter : ℚ) / (union : ℚ) * 10

/-- `ResumeMatcher._calculate_overall_score`: weighted sum
skill×0.5 + experience×0.3 + similarity×0.2, rounded to one decimal. -/
def calculate_overall_score (skill : SkillMatch) (expm : ExperienceMatch)
    (ts : ℚ) : ℚ :=
  pyRound1 (skill.score * (5/10) + expm.score * (3/10) + ts * (2/10))

/-! ### `ResumeMatcher.match` (feedback strings omitted, see header) -/

structure MatchResult where
  overall_score : ℚ
  skill_match : SkillMatch
  experience_match : ExperienceMatch
  text_similarity : ℚ
  job_keywords : List String
  recommendation : String
deriving DecidableEq

def matchResume (resume_info : ResumeInfo) (jd : String) (use_ai : Bool) :
    MatchResult :=
  let job_keywords := extract_job_keywords jd
  let skill := calculate_skill_match resume_info.skills job_keywords
  let expm := calculate_experience_match resume_info.experience jd
  let ts : ℚ :=
    if use_ai then calculate_text_similarity resume_info.summary ⟨jd.data.take 500⟩
    else 7/10
  let overall := calculate_overall_score skill expm ts
  { overall_score := pyRound1 overall
    skill_match := skill
    experience_match := expm
    text_similarity := pyRound1 ts
    job_keywords := job_keywords.take 20
    recommendation := get_recommendation overall }

/-! ## Helper lemmas on rounding -/

theorem fract_def (q : ℚ) : Int.fract q = q - ⌊q⌋ := rfl

theorem pyRoundInt_le (q : ℚ) : (pyRoundInt q : ℚ) ≤ q + 1/2 := by
  have h0 := Int.fract_nonneg q
  have h1 := Int.fract_lt_one q
  rw [fract_def] at h0 h1
  unfold pyRoundInt
  split_ifs with ha hb hc <;> rw [fract_def] at * <;> push_cast <;> linarith

theorem le_pyRoundInt (q : ℚ) : q - 1/2 ≤ (pyRoundInt q : ℚ) := by
  have h0 := Int.fract_nonneg q
  have h1 := Int.fract_lt_one q
  rw [fract_def] at h0 h1
  unfold pyRoundInt
  split_ifs with ha hb hc <;> rw [fract_def] at * <;> push_cast <;> linarith

theorem pyRoundInt_intCast (n : ℤ) : pyRoundInt (n : ℚ) = n := by
  unfold pyRoundInt
  rw [Int.fract_intCast, Int.floor_intCast]
  norm_num

theorem pyRound1_idem (q : ℚ) : pyRound1 (pyRound1 q) = pyRound1 q := by
  unfold pyRound1
  rw [div_mul_cancel₀ _ (by norm_num : (10 : ℚ) ≠ 0), pyRoundInt_intCast]

/-! ## Claim theorems -/

/-- C6: for every overall score `s` the recommendation tier is exactly:
"strongly recommend" (`强烈推荐`) iff `s ≥ 8.5`, "recommend" (`推荐`) iff
`7.0 ≤ s < 8.5`, "consider" (`可考虑`) iff `5.0 ≤ s < 7.0`, and
"not recommended" (`不推荐`) iff `s < 5.0`; in particular the boundary
values 8.5, 7.0, 5.0 and 4.9 fall in the stated tiers. -/
theorem recommendation_tier_boundaries :
    (∀ s : ℚ,
      (get_recommendation s = "强烈推荐" ↔ 85/10 ≤ s) ∧
      (get_recommendation s = "推荐" ↔ 7 ≤ s ∧ s < 85/10) ∧
      (get_recommendation s = "可考虑" ↔ 5 ≤ s ∧ s < 7) ∧
      (get_recommendation s = "不推荐" ↔ s < 5)) ∧
    get_recommendation (85/10) = "强烈推荐" ∧
    get_recommendation 7 = "推荐" ∧
    get_recommendation 5 = "可考虑" ∧
    get_recommendation (49/10) = "不推荐" := by
  have hforall : ∀ s : ℚ,
      (get_recommendation s = "强烈推荐" ↔ 85/10 ≤ s) ∧
      (get_recommendation s = "推荐" ↔ 7 ≤ s ∧ s < 85/10) ∧
      (get_recommendation s = "可考虑" ↔ 5 ≤ s ∧ s < 7) ∧
      (get_recommendation s = "不推荐" ↔ s < 5) := by
    intro s
    unfold get_recommendation
    split_ifs with h1 h2 h3
    · exact ⟨iff_of_true rfl h1,
        iff_of_false (by decide) (fun h => absurd h.2 (not_lt.2 h1)),
        iff_of_false (by decide)
          (fun h => absurd h.2 (not_lt.2 (le_trans (by norm_num) h1))),
        iff_of_false (by decide) (not_lt.2 (le_trans (by norm_num) h1))⟩
    · exact ⟨iff_of_false (by decide) h1,
        iff_of_true rfl ⟨h2, not_le.1 h1⟩,
        iff_of_false (by decide) (fun h => absurd h.2 (not_lt.2 h2)),
        iff_of_false (by decide) (not_lt.2 (le_trans (by norm_num) h2))⟩
    · exact ⟨iff_of_false (by decide) h1,
        iff_of_false (by decide) (fun h => h2 h.1),
        iff_of_true rfl ⟨h3, not_le.1 h2⟩,
        iff_of_false (by decide) (not_lt.2 h3)⟩
    · exact ⟨iff_of_false (by decide) h1,
        iff_of_false (by decide) (fun h => h2 h.1),
        iff_of_false (by decide) (fun h => h3 h.1),
        iff_of_true rfl (not_le.1 h3)⟩
  refine ⟨hforall, ?_, ?_, ?_, ?_⟩
  · exact (hforall _).1.2 (by norm_num)
  · exact (hforall _).2.1.2 (by norm_num)
  · exact (hforall _).2.2.1.2 (by norm_num)
  · exact (hforall _).2.2.2.2 (by norm_num)

/-- C7: in-memory cache round trip.  After `set k v ttl` at time `t₁`, a
`get k` strictly before the expiry time `t₁ + ttl` returns `v`; a `get k`
at or after the expiry time returns a miss (`none`), evicts the entry from
both dicts, and a subsequent `get k` (no intervening `set`) at any time
`t₄` also misses. -/
theorem cache_expiry_roundtrip {α : Type} (s : CacheState α) (k : String)
    (v : α) (ttl : ℤ) (t₁ t₂ t₃ t₄ : ℚ)
    (hbefore : t₂ < t₁ + ttl) (hafter : t₁ + ttl ≤ t₃) :
    (cacheGet (cacheSet s k v ttl t₁) k t₂).1 = some v ∧
    (cacheGet (cacheSet s k v ttl t₁) k t₃).1 = none ∧
    (cacheGet (cacheSet s k v ttl t₁) k t₃).2.memory_cache k = none ∧
    (cacheGet (cacheSet s k v ttl t₁) k t₃).2.cache_expiry k = none ∧
    (cacheGet ((cacheGet (cacheSet s k v ttl t₁) k t₃).2) k t₄).1 = none := by
  have hm : (cacheSet s k v ttl t₁).memory_cache k = some v := by
    simp [cacheSet]
  have he : (cacheSet s k v ttl t₁).cache_expiry k = some (t₁ + ttl) := by
    simp [cacheSet]
  have hget3 : cacheGet (cacheSet s k v ttl t₁) k t₃ =
      (none,
        { memory_cache := fun k' =>
            if k' = k then none else (cacheSet s k v ttl t₁).memory_cache k'
          cache_expiry := fun k' =>
            if k' = k then none else (cacheSet s k v ttl t₁).cache_expiry k' }) := by
    unfold cacheGet
    rw [hm, he]
    simp only [Option.getD_some]
    rw [if_neg (not_lt.2 hafter)]
  refine ⟨?_, ?_, ?_, ?_, ?_⟩
  · unfold cacheGet
    rw [hm, he]
    simp only [Option.getD_some]
    rw [if_pos hbefore]
  · rw [hget3]
  · rw [hget3]; simp
  · rw [hget3]; simp
  · rw [hget3]
    unfold cacheGet
    simp

/-- C7 witness: a concrete round trip on an initially empty cache with
`ttl = 1`, set at time 0, read at times 1/2 (hit), 2 (expired miss) and 5
(still a miss). -/
theorem cache_expiry_roundtrip_witness :
    (cacheGet (cacheSet (CacheState.empty ℕ) "k" 42 1 0) "k" (1/2)).1 = some 42 ∧
    (cacheGet (cacheSet (CacheState.empty ℕ) "k" 42 1 0) "k" 2).1 = none ∧
    (cacheGet ((cacheGet (cacheSet (CacheState.empty ℕ) "k" 42 1 0) "k" 2).2)
      "k" 5).1 = none :=
  ⟨(cache_expiry_roundtrip (CacheState.empty ℕ) "k" 42 1 0 (1/2) 2 5
      (by norm_num) (by norm_num)).1,
   (cache_expiry_roundtrip (CacheState.empty ℕ) "k" 42 1 0 (1/2) 2 5
      (by norm_num) (by norm_num)).2.1,
   (cache_expiry_roundtrip (CacheState.empty ℕ) "k" 42 1 0 (1/2) 2 5
      (by norm_num) (by norm_num)).2.2.2.2⟩

/-- C9: the attribute extractor is total (modelled by total functions) and
degrades to empty defaults: the reserved `other` skill category is empty
for every input, and on inputs with no recognisable fields (the empty
string; a string of symbols and stray digits) every basic-info field,
every skill category, the company/role lists and every education field are
their empty defaults.  (`experience.years` is 3 on such inputs — the
keyword tier's default — and the summary echoes the input; the claim lists
neither among the empty-default fields.) -/
theorem extract_info_graceful_defaults :
    (∀ text : String, (extract_info text).skills.other = []) ∧
    extract_info "" =
      { basic_info := { name := "", phone := "", email := "", location := "" }
        skills := { programming := [], web := [], databases := [], cloud := []
                    ai_ml := [], soft_skills := [], other := [] }
        experience := { years := 3, companies := [], roles := [] }
        education := { degree := "", university := "", graduation_year := "" }
        summary := "" } ∧
    extract_info "@@@@ 12345 !!!" =
      { basic_info := { name := "", phone := "", email := "", location := "" }
        skills := { programming := [], web := [], databases := [], cloud := []
                    ai_ml := [], soft_skills := [], other := [] }
        experience := { years := 3, companies := [], roles := [] }
        education := { degree := "", university := "", graduation_year := "" }
        summary := "@@@@ 12345 !!!" } :=
  ⟨fun _ => rfl, by decide, by decide⟩

/-- `containsSub` decides list infixhood, i.e. Python's `in` on strings. -/
theorem containsSub_iff (n h : List Char) : containsSub n h = true ↔ n <:+: h := by
  induction h with
  | nil => simp [containsSub, List.isEmpty_iff, List.infix_nil]
  | cons c t ih =>
    simp [containsSub, ih, List.infix_cons_iff, List.isPrefixOf_iff_prefix]

/-- C10: skill extraction matches keywords as plain substrings of the
lowercased text, not as whole words: any text whose lowercased form
contains "javascript" yields a programming category containing both
"Javascript" and "Java" (as "java" is a substring of "javascript"). -/
theorem skills_substring_not_whole_word (text : String)
    (hjs : strIn "javascript" (pyLower text) = true) :
    "Javascript" ∈ (extract_skills text).programming ∧
    "Java" ∈ (extract_skills text).programming := by
  have hj : strIn "java" (pyLower text) = true := by
    have h1 : ("java".data) <:+: ("javascript".data) :=
      ⟨[], "script".data, by decide⟩
    exact (containsSub_iff _ _).2 (h1.trans ((containsSub_iff _ _).1 hjs))
  constructor
  · show "Javascript" ∈ ((programming_keywords.filter
      (fun k => strIn k (pyLower text))).map pyTitle).dedup
    rw [List.mem_dedup]
    exact List.mem_map.2
      ⟨"javascript", List.mem_filter.2 ⟨by decide, hjs⟩, by decide⟩
  · show "Java" ∈ ((programming_keywords.filter
      (fun k => strIn k (pyLower text))).map pyTitle).dedup
    rw [List.mem_dedup]
    exact List.mem_map.2 ⟨"java", List.mem_filter.2 ⟨by decide, hj⟩, by decide⟩

/-- C10 witness: the text "I write JavaScript daily" contains
"javascript" once lowercased, and its programming skills include both
"Javascript" and "Java". -/
theorem skills_substring_not_whole_word_witness :
    strIn "javascript" (pyLower "I write JavaScript daily") = true ∧
    "Javascript" ∈ (extract_skills "I write JavaScript daily").programming ∧
    "Java" ∈ (extract_skills "I write JavaScript daily").programming :=
  ⟨by decide,
   (skills_substring_not_whole_word "I write JavaScript daily" (by decide)).1,
   (skills_substring_not_whole_word "I write JavaScript daily" (by decide)).2⟩

/-! ### C1 lemmas: the findall group values are only 19 or 20 -/

theorem yearAt_val (cs : List Char) (g : ℕ) (rest : List Char)
    (h : yearAt cs = some (g, rest)) : g = 19 ∨ g = 20 := by
  unfold yearAt at h
  split at h
  · split_ifs at h
    simp only [Option.some.injEq, Prod.mk.injEq] at h
    exact Or.inl h.1.symm
  · split_ifs at h
    simp only [Option.some.injEq, Prod.mk.injEq] at h
    exact Or.inr h.1.symm
  · exact absurd h (by simp)

theorem yearScanAux_mem (fuel : ℕ) :
    ∀ cs y, y ∈ yearScanAux fuel cs → y = 19 ∨ y = 20 := by
  induction fuel with
  | zero => intro cs y hy; simp [yearScanAux] at hy
  | succ n ih =>
    intro cs y hy
    cases cs with
    | nil => simp [yearScanAux] at hy
    | cons c cs' =>
      rw [yearScanAux] at hy
      split at hy
      · next g rest heq =>
        rcases List.mem_cons.1 hy with h' | h'
        · exact h' ▸ yearAt_val _ _ _ heq
        · exact ih _ _ h'
      · exact ih _ _ hy

theorem estimateViaDates_eq_none (text : String) :
    estimateViaDates text = none := by
  have hnil : (yearScan text.data).filter
      (fun y => decide (1900 < y) && decide (y ≤ 2024)) = [] := by
    rw [List.filter_eq_nil_iff]
    intro y hy
    rcases yearScanAux_mem _ _ _ hy with h | h <;> subst h <;> decide
  simp [estimateViaDates, hnil]

/-- C1 (code bug): the year-span tier of `_estimate_experience_years` is
dead code.  `re.findall(r'(19|20)\d{2}', text)` returns the *group*
matches "19"/"20" (not the four-digit years), so the filter
`1900 < int(y) <= 2024` always empties the list and the function always
falls through to the keyword tiers.  Concretely, "Employed 2010 to 2020"
(span 10) and "Employed 2020 to 2021" (span 1) both yield 3, violating
both the tier-(a) equation and the `years ≤ span` bound of the claim. -/
theorem estimate_years_date_tier_dead :
    (∀ text : String, estimate_experience_years text = estimateViaKeywords text) ∧
    estimate_experience_years "Employed 2010 to 2020" = 3 ∧ (3 : ℕ) ≠ 10 ∧
    estimate_experience_years "Employed 2020 to 2021" = 3 ∧ ¬(3 : ℕ) ≤ 1 := by
  refine ⟨fun text => ?_, by decide, by decide, by decide, by decide⟩
  unfold estimate_experience_years
  rw [estimateViaDates_eq_none]

/-- C2 (code bug): when `use_ai` is false the matcher uses the raw
constant 0.7 — never scaled by 10 — as the text-similarity value: the
returned `text_similarity` is 0.7 (not 7.0) and the similarity term of
the weighted overall score is 0.7 × 0.2 = 0.14 (not 7.0 × 0.2 = 1.4),
although the enabled branch of the very same expression returns a value
on the 0–10 scale and the code prints the value as `{x}/10`. -/
theorem text_similarity_disabled_not_scaled (resume_info : ResumeInfo)
    (jd : String) :
    (matchResume resume_info jd false).text_similarity = 7/10 ∧
    (matchResume resume_info jd false).overall_score =
      pyRound1 ((matchResume resume_info jd false).skill_match.score * (5/10) +
        (matchResume resume_info jd false).experience_match.score * (3/10) +
        (7/10) * (2/10)) ∧
    (7/10 : ℚ) ≠ 7 ∧ ((7:ℚ)/10) * (2/10) ≠ 7 * (2/10) := by
  refine ⟨?_, ?_, by norm_num, by norm_num⟩
  · show pyRound1 (7/10) = 7/10
    norm_num [pyRound1, pyRoundInt, Int.fract]
  · show pyRound1 (calculate_overall_score _ _ _) = _
    unfold calculate_overall_score
    rw [pyRound1_idem]
    rfl

/-- C3 counterexample: on the job description "5+ years required" the
required-experience scan captures 5 via its first pattern
`(\d+)\+?\s*years`, while the tenure scan of the keyword extractor (whose
patterns all require the word "experience") detects nothing — so the two
scans neither agree on a figure nor both detect none. -/
theorem years_scans_disagree_counterexample :
    extract_years_explicit "5+ years required" = some 5 ∧
    jobTenureTokens "5+ years required" = [] ∧
    ¬((∃ n : ℕ, extract_years_explicit "5+ years required" = some n ∧
        mkExpToken n ∈ jobTenureTokens "5+ years required") ∨
      (extract_years_explicit "5+ years required" = none ∧
        jobTenureTokens "5+ years required" = [])) := by
  refine ⟨by decide, by decide, ?_⟩
  rintro (⟨n, -, hmem⟩ | ⟨hn, -⟩)
  · rw [show jobTenureTokens "5+ years required" = [] from by decide] at hmem
    exact absurd hmem (List.not_mem_nil _)
  · exact absurd hn (by decide)

/-- C3 amended: the two scans use different pattern lists (four patterns
for `_extract_years_required`, whose first pattern `(\d+)\+?\s*years` is
more general; three for the tenure scan of `_extract_job_keywords`) and
are not equivalent in either direction: the required-experience scan can
detect an explicit figure where the tenure scan detects none
("5+ years required"), and the tenure scan can detect a figure where the
required-experience scan finds no explicit figure and falls back to tier
inference ("experience of 4 year", where required-experience yields 0). -/
theorem years_scans_not_equivalent :
    (extract_years_explicit "5+ years required" = some 5 ∧
     jobTenureTokens "5+ years required" = []) ∧
    (jobTenureTokens "experience of 4 year" = [mkExpToken 4] ∧
     extract_years_explicit "experience of 4 year" = none ∧
     extract_years_required "experience of 4 year" = 0) := by
  exact ⟨⟨by decide, by decide⟩, ⟨by decide, by decide, by decide⟩⟩

/-! ### C4 lemmas: the percentage/score fields as roundings of the match
fraction -/

theorem calculate_skill_match_percentage_eq (sk : Skills) (kws : List String) :
    (calculate_skill_match sk kws).percentage =
      pyRound1 ((if kws.isEmpty then (0:ℚ) else
        ((calculate_skill_match sk kws).matched_skills.length : ℚ) /
          (kws.length : ℚ)) * 100) := rfl

theorem calculate_skill_match_score_eq (sk : Skills) (kws : List String) :
    (calculate_skill_match sk kws).score =
      pyRound1 ((if kws.isEmpty then (0:ℚ) else
        ((calculate_skill_match sk kws).matched_skills.length : ℚ) /
          (kws.length : ℚ)) * 10) := rfl

/-- C4 counterexample: with one matched keyword out of three, the source
computes `percentage = round(100/3, 1) = 33.3` and
`score = round(10/3, 1) = 3.3`, so `score ≠ percentage / 10 = 3.33`
(and the percentage is not the un-rounded `100/3` either). -/
theorem skill_match_score_not_percentage_div_ten :
    (calculate_skill_match
        { programming := ["Python"], web := [], databases := [], cloud := []
          ai_ml := [], soft_skills := [], other := [] }
        ["python", "docker", "kubernetes"]).percentage = 333/10 ∧
    (calculate_skill_match
        { programming := ["Python"], web := [], databases := [], cloud := []
          ai_ml := [], soft_skills := [], other := [] }
        ["python", "docker", "kubernetes"]).score = 33/10 ∧
    (calculate_skill_match
        { programming := ["Python"], web := [], databases := [], cloud := []
          ai_ml := [], soft_skills := [], other := [] }
        ["python", "docker", "kubernetes"]).score ≠
      (calculate_skill_match
        { programming := ["Python"], web := [], databases := [], cloud := []
          ai_ml := [], soft_skills := [], other := [] }
        ["python", "docker", "kubernetes"]).percentage / 10 ∧
    (calculate_skill_match
        { programming := ["Python"], web := [], databases := [], cloud := []
          ai_ml := [], soft_skills := [], other := [] }
        ["python", "docker", "kubernetes"]).percentage ≠ 100/3 := by
  have hm : (calculate_skill_match
      { programming := ["Python"], web := [], databases := [], cloud := []
        ai_ml := [], soft_skills := [], other := [] }
      ["python", "docker", "kubernetes"]).matched_skills = ["python"] := by
    decide
  have hp : (calculate_skill_match
      { programming := ["Python"], web := [], databases := [], cloud := []
        ai_ml := [], soft_skills := [], other := [] }
      ["python", "docker", "kubernetes"]).percentage = 333/10 := by
    rw [calculate_skill_match_percentage_eq, hm]
    norm_num [pyRound1, pyRoundInt, Int.fract]
  have hs : (calculate_skill_match
      { programming := ["Python"], web := [], databases := [], cloud := []
        ai_ml := [], soft_skills := [], other := [] }
      ["python", "docker", "kubernetes"]).score = 33/10 := by
    rw [calculate_skill_match_score_eq, hm]
    norm_num [pyRound1, pyRoundInt, Int.fract]
  refine ⟨hp, hs, ?_, ?_⟩
  · rw [hp, hs]; norm_num
  · rw [hp]; norm_num

/-- Rounding sublemma for C4: for a fraction in `[0,1]`, the one-decimal
rounding of `f*100` lies in `[0,100]`, and the one-decimal roundings of
`f*10` and of `f*100` (the latter divided by 10) differ by at most
`11/200 = 0.055`. -/
theorem round_fraction_bounds (f : ℚ) (h0 : 0 ≤ f) (h1 : f ≤ 1) :
    0 ≤ pyRound1 (f * 100) ∧ pyRound1 (f * 100) ≤ 100 ∧
    |pyRound1 (f * 10) - pyRound1 (f * 100) / 10| ≤ 11/200 := by
  have ha1 := pyRoundInt_le (f * 10 * 10)
  have ha2 := le_pyRoundInt (f * 10 * 10)
  have hb1 := pyRoundInt_le (f * 100 * 10)
  have hb2 := le_pyRoundInt (f * 100 * 10)
  have hbz1 : pyRoundInt (f * 100 * 10) ≤ 1000 := by
    have hq : ((pyRoundInt (f * 100 * 10) : ℤ) : ℚ) < 1001 := by nlinarith
    have : pyRoundInt (f * 100 * 10) < 1001 := by exact_mod_cast hq
    omega
  have hbz0 : 0 ≤ pyRoundInt (f * 100 * 10) := by
    have hq : (-1 : ℚ) < ((pyRoundInt (f * 100 * 10) : ℤ) : ℚ) := by nlinarith
    have : (-1 : ℤ) < pyRoundInt (f * 100 * 10) := by exact_mod_cast hq
    omega
  have hbq1 : ((pyRoundInt (f * 100 * 10) : ℤ) : ℚ) ≤ 1000 := by
    exact_mod_cast hbz1
  have hbq0 : (0:ℚ) ≤ ((pyRoundInt (f * 100 * 10) : ℤ) : ℚ) := by
    exact_mod_cast hbz0
  unfold pyRound1
  refine ⟨by linarith, by linarith, ?_⟩
  rw [abs_le]
  constructor <;> nlinarith

/-- C4 amended: the skill-match percentage always lies in `[0,100]` and is
0 when the keyword list is empty; both `percentage` and `score` are the
*one-decimal roundings* of `matchedCount/totalKeywords × 100` and `× 10`
respectively (the source applies `round(x, 1)` to each), so `score` equals
`percentage / 10` only up to rounding: they differ by at most 0.055. -/
theorem skill_match_percentage_score_bounds (resume_skills : Skills)
    (job_keywords : List String) :
    0 ≤ (calculate_skill_match resume_skills job_keywords).percentage ∧
    (calculate_skill_match resume_skills job_keywords).percentage ≤ 100 ∧
    (job_keywords = [] →
      (calculate_skill_match resume_skills job_keywords).percentage = 0) ∧
    (calculate_skill_match resume_skills job_keywords).score =
      pyRound1 ((if job_keywords.isEmpty then (0:ℚ) else
        ((calculate_skill_match resume_skills job_keywords).matched_skills.length : ℚ) /
          (job_keywords.length : ℚ)) * 10) ∧
    |(calculate_skill_match resume_skills job_keywords).score -
      (calculate_skill_match resume_skills job_keywords).percentage / 10| ≤
        11/200 := by
  have hmlen : (calculate_skill_match resume_skills job_keywords).matched_skills.length ≤
      job_keywords.length := List.length_filter_le _ _
  have hfrac : 0 ≤ (if job_keywords.isEmpty then (0:ℚ) else
      ((calculate_skill_match resume_skills job_keywords).matched_skills.length : ℚ) /
        (job_keywords.length : ℚ)) ∧
      (if job_keywords.isEmpty then (0:ℚ) else
      ((calculate_skill_match resume_skills job_keywords).matched_skills.length : ℚ) /
        (job_keywords.length : ℚ)) ≤ 1 := by
    split_ifs with he
    · norm_num
    · have hn : 0 < job_keywords.length := by
        cases job_keywords with
        | nil => simp at he
        | cons a t => simp
      have hnq : (0:ℚ) < (job_keywords.length : ℚ) := by exact_mod_cast hn
      constructor
      · positivity
      · rw [div_le_one hnq]
        exact_mod_cast hmlen
  have hb := round_fraction_bounds _ hfrac.1 hfrac.2
  rw [calculate_skill_match_percentage_eq, calculate_skill_match_score_eq]
  refine ⟨hb.1, hb.2.1, ?_, rfl, hb.2.2⟩
  intro he
  subst he
  simp only [List.isEmpty_nil, if_true, zero_mul]
  norm_num [pyRound1, pyRoundInt, Int.fract]

/-- C4 witness: applying the amended theorem at the empty keyword list
discharges its empty-list hypothesis: the percentage is 0 there. -/
theorem skill_match_percentage_score_bounds_witness :
    (calculate_skill_match
      { programming := [], web := [], databases := [], cloud := []
        ai_ml := [], soft_skills := [], other := [] } []).percentage = 0 :=
  (skill_match_percentage_score_bounds _ []).2.2.1 rfl

/-- C5 counterexample: on a profile with 1 year of experience and the job
description "3 years" (derived requirement 3), the source stores
`round(min(10, 1/3*10), 1) = 3.3` in the score field, which is not
`min(10, 1/3×10) = 10/3`. -/
theorem experience_score_rounding_counterexample :
    (calculate_experience_match ⟨1, [], []⟩ "3 years").years_required = 3 ∧
    (calculate_experience_match ⟨1, [], []⟩ "3 years").score = 33/10 ∧
    (33/10 : ℚ) ≠ min 10 ((1:ℚ)/3 * 10) := by
  have hyr : extract_years_required "3 years" = 3 := by decide
  refine ⟨?_, ?_, by norm_num⟩
  · show extract_years_required "3 years" = 3
    exact hyr
  · unfold calculate_experience_match
    rw [hyr]
    norm_num [pyRound1, pyRoundInt, Int.fract]

/-- The claim's experience-score formula, amended only by the one-decimal
rounding that the source applies to the stored score (`round(match_score,
1)`); all branches other than `min(10, actual/required*10)` are already
one-decimal values, so only that branch is affected. -/
def expScoreSpec (actual required : ℕ) : ℚ :=
  if 0 < required then
    if actual ≥ required then 10
    else if 0 < actual then
      pyRound1 (min 10 ((actual : ℚ) / (required : ℚ) * 10))
    else 0
  else
    if actual ≥ 8 then 9
    else if actual ≥ 5 then 15/2
    else if actual ≥ 3 then 6
    else if actual ≥ 1 then 4
    else 2

/-- C5 amended: for every experience record and job description, the
stored experience-match score equals the claim's piecewise formula with
its middle branch rounded to one decimal; the derived requirement and
actual years are reported unchanged. -/
theorem experience_match_score_formula (e : Experience) (jd : String) :
    (calculate_experience_match e jd).score =
      expScoreSpec e.years (extract_years_required jd) ∧
    (calculate_experience_match e jd).years_required =
      extract_years_required jd ∧
    (calculate_experience_match e jd).years_actual = e.years := by
  refine ⟨?_, rfl, rfl⟩
  show pyRound1 _ = _
  unfold expScoreSpec
  split_ifs <;> first
  | rfl
  | norm_num [pyRound1, pyRoundInt, Int.fract]

/-! ### C8: synthetic tenure tokens -/

/-- A synthetic tenure token: a keyword starting with `experience_`.
The tokens appended by the tenure scan all have this shape
(`mkExpToken_synthetic`), and no vocabulary keyword or lowercased
technical word does (they contain no underscore at all). -/
def isSyntheticTok (s : String) : Bool :=
  "experience_".data.isPrefixOf s.data

/-- C8 counterexample: the job description
"5 years experience of 3 years" matches both the first tenure pattern
(capturing 5) and the second (capturing 3); because the scan loop has no
break, the extracted keyword set contains *two* synthetic tokens, not at
most one. -/
theorem tenure_tokens_counterexample :
    "experience_5_years" ∈ extract_job_keywords "5 years experience of 3 years" ∧
    "experience_3_years" ∈ extract_job_keywords "5 years experience of 3 years" ∧
    (extract_job_keywords "5 years experience of 3 years").countP isSyntheticTok
      = 2 ∧
    ¬((extract_job_keywords "5 years experience of 3 years").countP
        isSyntheticTok ≤ 1) :=
  ⟨by decide, by decide, by decide, by decide⟩

theorem dedup_filter {α : Type} [DecidableEq α] (p : α → Bool) (l : List α) :
    l.dedup.filter p = (l.filter p).dedup := by
  induction l with
  | nil => simp
  | cons a t ih =>
    by_cases ha : a ∈ t
    · rw [List.dedup_cons_of_mem ha]
      by_cases hpa : p a
      · rw [List.filter_cons_of_pos hpa,
          List.dedup_cons_of_mem (List.mem_filter.2 ⟨ha, hpa⟩)]
        exact ih
      · rw [List.filter_cons_of_neg hpa]
        exact ih
    · rw [List.dedup_cons_of_not_mem ha]
      by_cases hpa : p a
      · rw [List.filter_cons_of_pos hpa, List.filter_cons_of_pos hpa,
          List.dedup_cons_of_not_mem (fun h => ha (List.mem_filter.1 h).1)]
        rw [ih]
      · rw [List.filter_cons_of_neg hpa, List.filter_cons_of_neg hpa]
        exact ih

theorem mem_techFold {x : String} :
    ∀ (tech acc : List String),
      x ∈ tech.foldl (fun acc w =>
        let wl := pyLower w
        if wl ∈ acc then acc else acc ++ [wl]) acc →
      x ∈ acc ∨ ∃ w ∈ tech, x = pyLower w := by
  intro tech
  induction tech with
  | nil => intro acc h; exact Or.inl h
  | cons w ws ih =>
    intro acc h
    simp only [List.foldl_cons] at h
    rcases ih _ h with h' | ⟨w', hw', hx⟩
    · split_ifs at h' with hc
      · exact Or.inl h'
      · rcases List.mem_append.1 h' with h'' | h''
        · exact Or.inl h''
        · refine Or.inr ⟨w, List.mem_cons_self w ws, ?_⟩
          simpa using h''
    · exact Or.inr ⟨w', List.mem_cons_of_mem _ hw', hx⟩

theorem pyLowerChar_eq_or_lower (c : Char) :
    pyLowerChar c = c ∨ isLowerCh (pyLowerChar c) = true := by
  unfold pyLowerChar
  split <;> first | (left; rfl) | (right; decide)

theorem upper_or_lower_ne_underscore (c : Char)
    (h : isUpperCh c = true ∨ isLowerCh c = true) : c ≠ '_' := by
  intro he
  subst he
  rcases h with h | h <;> exact absurd h (by decide)

theorem pyLowerChar_ne_underscore (c : Char) (hc : c ≠ '_') :
    pyLowerChar c ≠ '_' := by
  rcases pyLowerChar_eq_or_lower c with h | h
  · rw [h]; exact hc
  · intro he
    rw [he] at h
    exact absurd h (by decide)

theorem camelAt_chars (cs m : List Char) (h : camelAt cs = some m) :
    ∀ c ∈ m, isUpperCh c = true ∨ isLowerCh c = true := by
  cases cs with
  | nil => simp [camelAt] at h
  | cons c1 cs1 =>
    rw [camelAt] at h
    cases hdw : List.dropWhile isLowerCh cs1 with
    | nil => rw [hdw] at h; simp at h
    | cons d cs2 =>
      simp only [hdw] at h
      cases hdw2 : List.dropWhile isLowerCh cs2 with
      | nil =>
        simp only [hdw2] at h
        simp only [Option.ite_none_right_eq_some, Bool.and_eq_true,
          Option.some.injEq] at h
        obtain ⟨⟨⟨⟨⟨hu1, -⟩, hud⟩, -⟩, -⟩, hm⟩ := h
        subst hm
        intro c hc
        rcases List.mem_cons.1 hc with rfl | hc
        · exact Or.inl hu1
        · rcases List.mem_append.1 hc with hc | hc
          · exact Or.inr (List.mem_takeWhile_imp hc)
          · rcases List.mem_cons.1 hc with rfl | hc
            · exact Or.inl hud
            · exact Or.inr (List.mem_takeWhile_imp hc)
      | cons e t =>
        simp only [hdw2] at h
        simp only [Option.ite_none_right_eq_some, Bool.and_eq_true,
          Option.some.injEq] at h
        obtain ⟨⟨⟨⟨⟨hu1, -⟩, hud⟩, -⟩, -⟩, hm⟩ := h
        subst hm
        intro c hc
        rcases List.mem_cons.1 hc with rfl | hc
        · exact Or.inl hu1
        · rcases List.mem_append.1 hc with hc | hc
          · exact Or.inr (List.mem_takeWhile_imp hc)
          · rcases List.mem_cons.1 hc with rfl | hc
            · exact Or.inl hud
            · exact Or.inr (List.mem_takeWhile_imp hc)

theorem capsAt_chars (cs m : List Char) (h : capsAt cs = some m) :
    ∀ c ∈ m, isUpperCh c = true ∨ isLowerCh c = true := by
  unfold capsAt at h
  cases hdw : List.dropWhile isUpperCh cs with
  | nil =>
    simp only [hdw] at h
    simp only [Option.ite_none_right_eq_some, Option.some.injEq] at h
    obtain ⟨-, hm⟩ := h
    subst hm
    exact fun c hc => Or.inl (List.mem_takeWhile_imp hc)
  | cons e t =>
    simp only [hdw] at h
    simp only [Option.ite_none_right_eq_some, Bool.and_eq_true,
      Option.some.injEq] at h
    obtain ⟨-, hm⟩ := h
    subst hm
    exact fun c hc => Or.inl (List.mem_takeWhile_imp hc)

theorem bndTry_prop (atM : List Char → Option (List Char))
    (P : List Char → Prop) (hat : ∀ cs m, atM cs = some m → P m)
    (prev : Option Char) (cs m : List Char)
    (h : bndTry atM prev cs = some m) : P m := by
  unfold bndTry at h
  split at h
  · exact hat _ _ h
  · exact absurd h (by simp)

theorem scanBndAux_mem (atM : List Char → Option (List Char))
    (P : List Char → Prop) (hat : ∀ cs m, atM cs = some m → P m) :
    ∀ fuel prev cs m, m ∈ scanBndAux atM fuel prev cs → P m := by
  intro fuel
  induction fuel with
  | zero => intro prev cs m hm; simp [scanBndAux] at hm
  | succ n ih =>
    intro prev cs m hm
    cases cs with
    | nil => simp [scanBndAux] at hm
    | cons c cs' =>
      rw [scanBndAux] at hm
      split at hm
      · rename_i m0 heq
        split at hm
        · exact ih _ _ _ hm
        · rcases List.mem_cons.1 hm with h' | h'
          · exact h' ▸ bndTry_prop atM P hat _ _ _ heq
          · exact ih _ _ _ h'
      · exact ih _ _ _ hm

theorem mkExpToken_synthetic (n : ℕ) : isSyntheticTok (mkExpToken n) = true := by
  unfold isSyntheticTok mkExpToken
  rw [List.isPrefixOf_iff_prefix]
  refine ⟨(toString n).data ++ "_years".data, ?_⟩
  rw [String.data_append, String.data_append]
  simp [List.append_assoc]

theorem no_underscore_not_synthetic (w : String)
    (hw : ∀ c ∈ w.data, isUpperCh c = true ∨ isLowerCh c = true) :
    isSyntheticTok (pyLower w) = false := by
  by_contra hcon
  have htrue : "experience_".data.isPrefixOf (pyLower w).data = true := by
    revert hcon
    unfold isSyntheticTok
    cases "experience_".data.isPrefixOf (pyLower w).data <;> simp
  obtain ⟨t, ht⟩ := (List.isPrefixOf_iff_prefix).1 htrue
  have hmem : '_' ∈ (pyLower w).data := by
    rw [← ht]
    exact List.mem_append.2 (Or.inl (by decide))
  have hdata : (pyLower w).data = w.data.map pyLowerChar := rfl
  rw [hdata] at hmem
  rcases List.mem_map.1 hmem with ⟨c, hc, hce⟩
  exact pyLowerChar_ne_underscore c
    (upper_or_lower_ne_underscore c (hw c hc)) hce

/-- C8 amended: the tenure scan appends one synthetic token for *each*
matching pattern of the ordered 3-pattern scan (the loop has no break), so
the extracted keyword set contains up to three synthetic tokens, not at
most one: its synthetic tokens are exactly the per-pattern detections
(deduplicated), every one of the shape `experience_<N>_years`. -/
theorem tenure_tokens_per_pattern (jd : String) :
    (extract_job_keywords jd).filter isSyntheticTok = (jobTenureTokens jd).dedup ∧
    (jobTenureTokens jd).length ≤ 3 ∧
    (∀ t ∈ jobTenureTokens jd, isSyntheticTok t = true) := by
  have htoksyn : ∀ t ∈ jobTenureTokens jd, isSyntheticTok t = true := by
    intro t ht
    unfold jobTenureTokens at ht
    rcases List.mem_map.1 ht with ⟨n, -, rfl⟩
    exact mkExpToken_synthetic n
  have hcamel : ∀ w ∈ findallCamel jd, ∀ c ∈ w.data,
      isUpperCh c = true ∨ isLowerCh c = true := by
    intro w hw
    rcases List.mem_map.1 hw with ⟨m, hm, rfl⟩
    exact scanBndAux_mem camelAt
      (fun m' => ∀ c ∈ m', isUpperCh c = true ∨ isLowerCh c = true)
      camelAt_chars _ _ _ _ hm
  have hcaps : ∀ w ∈ findallCaps jd, ∀ c ∈ w.data,
      isUpperCh c = true ∨ isLowerCh c = true := by
    intro w hw
    rcases List.mem_map.1 hw with ⟨m, hm, rfl⟩
    exact scanBndAux_mem capsAt
      (fun m' => ∀ c ∈ m', isUpperCh c = true ∨ isLowerCh c = true)
      capsAt_chars _ _ _ _ hm
  have hcommon : ∀ s ∈ common_skills, isSyntheticTok s = false := by decide
  have hfound2 : ∀ x ∈ ((findallCamel jd ++ findallCaps jd).take 10).foldl
      (fun acc w =>
        let wl := pyLower w
        if wl ∈ acc then acc else acc ++ [wl])
      (common_skills.filter (fun s => strIn s (pyLower jd))),
      ¬isSyntheticTok x = true := by
    intro x hx
    rcases mem_techFold _ _ hx with hx' | ⟨w, hw, rfl⟩
    · rw [hcommon x (List.mem_filter.1 hx').1]
      simp
    · have hw' : w ∈ findallCamel jd ++ findallCaps jd :=
        (List.take_sublist 10 _).subset hw
      have hchars : ∀ c ∈ w.data, isUpperCh c = true ∨ isLowerCh c = true := by
        rcases List.mem_append.1 hw' with h | h
        · exact hcamel w h
        · exact hcaps w h
      rw [no_underscore_not_synthetic w hchars]
      simp
  refine ⟨?_, ?_, htoksyn⟩
  · show ((((findallCamel jd ++ findallCaps jd).take 10).foldl
        (fun acc w =>
          let wl := pyLower w
          if wl ∈ acc then acc else acc ++ [wl])
        (common_skills.filter (fun s => strIn s (pyLower jd))) ++
          jobTenureTokens jd).dedup).filter isSyntheticTok = _
    rw [dedup_filter, List.filter_append,
      List.filter_eq_nil_iff.2 hfound2, List.filter_eq_self.2 htoksyn,
      List.nil_append]
  · unfold jobTenureTokens
    rw [List.length_map]
    exact le_trans (List.length_filterMap_le _ _) (by simp)

/-- C8 witness: applying the amended theorem to the job description
"experience of 4 year" discharges its membership hypothesis on the token
the second pattern detects. -/
theorem tenure_tokens_per_pattern_witness :
    isSyntheticTok "experience_4_years" = true :=
  (tenure_tokens_per_pattern "experience of 4 year").2.2
    "experience_4_years" (by decide)
